import Mathlib

/-!
Shallow embedding of the campaign-performance dashboard core
(`dashboard.py`): metric calculator, aggregator, budget model,
filter engine and presentation formatter, together with theorems
checking the specification's claims against these definitions.

Numeric columns are modelled as exact rationals.  Pandas float
division can produce `inf`/`-inf`/`NaN`; the code pipes every
derived column through `replace([inf, -inf], NA)` followed by
`fillna(0)`.  We model the raw division result with `PVal` and the
cleanup with `cleanup`, so that sites which do *not* run the cleanup
(such as the `% of Budget Used` table columns) keep their
infinities.
-/

namespace Dashboard

/-- Result of a pandas float division: a finite value, an infinity,
or not-a-number. -/
inductive PVal where
  | fin (q : ℚ)
  | posInf
  | negInf
  | nan
deriving DecidableEq, Repr

/-- Float division as pandas performs it: `x / 0` is `+inf` for
positive `x`, `-inf` for negative `x`, and `NaN` for `0 / 0`;
otherwise the exact quotient. -/
def pdiv (x y : ℚ) : PVal :=
  if y = 0 then
    if 0 < x then .posInf else if x < 0 then .negInf else .nan
  else .fin (x / y)

/-- Multiplication of a pandas value by a positive finite constant
(used for the `* 100` in percentage columns). -/
def pvalMulPos (v : PVal) (c : ℚ) : PVal :=
  match v with
  | .fin q => .fin (q * c)
  | .posInf => .posInf
  | .negInf => .negInf
  | .nan => .nan

/-- `replace([inf, -inf], NA)` followed by `fillna(0)`: infinities and
`NaN` become `0`, finite values survive. -/
def cleanup : PVal → ℚ
  | .fin q => q
  | .posInf => 0
  | .negInf => 0
  | .nan => 0

/-- Division followed by the dashboard's cleanup step. -/
def cleanDiv (x y : ℚ) : ℚ := cleanup (pdiv x y)

/-- One raw row of the dataset after loading/cleaning. -/
structure Record where
  appName : String
  campaignId : String
  creativeId : String
  date : ℤ
  spend : ℚ
  installs : ℚ
  impressions : ℚ
  revenue : ℚ
  payers : ℚ
  attribution : ℚ
deriving DecidableEq, Repr

/-- The seven derived ratio metrics. -/
structure Metrics where
  cpi : ℚ
  ipm : ℚ
  cpm : ℚ
  roas : ℚ
  payersPct : ℚ
  arpi : ℚ
  arpp : ℚ
deriving DecidableEq, Repr

/-- Metric calculator: the seven derived metrics computed from base
fields exactly as in `load_data` / `aggregate_data` (`Spend/Installs`,
`Installs/(Impressions/1000)`, …), each followed by the
`replace`/`fillna` cleanup. -/
def computeMetrics (spend installs impressions revenue payers : ℚ) : Metrics :=
  { cpi := cleanDiv spend installs
    ipm := cleanDiv installs (impressions / 1000)
    cpm := cleanDiv spend (impressions / 1000)
    roas := cleanDiv revenue spend
    payersPct := cleanDiv payers installs
    arpi := cleanDiv revenue installs
    arpp := cleanDiv revenue payers }

/-- Row-level calculated fields of `load_data`. -/
def rowMetrics (r : Record) : Metrics :=
  computeMetrics r.spend r.installs r.impressions r.revenue r.payers

/-- One output row of `aggregate_data`: summed base fields, mean
attribution, recomputed metrics. -/
structure Group where
  spend : ℚ
  installs : ℚ
  impressions : ℚ
  payers : ℚ
  revenue : ℚ
  attribution : ℚ
  metrics : Metrics
deriving DecidableEq, Repr

/-- Sum of a numeric field over a list of records. -/
def sumBy (f : Record → ℚ) (rs : List Record) : ℚ := (rs.map f).sum

/-- Build the aggregate row for one group of records: sum the five
base fields, take the mean of attribution, recompute the metrics on
the summed values (then cleanup, as `aggregate_data` does). -/
def mkGroup (rs : List Record) : Group :=
  { spend := sumBy Record.spend rs
    installs := sumBy Record.installs rs
    impressions := sumBy Record.impressions rs
    payers := sumBy Record.payers rs
    revenue := sumBy Record.revenue rs
    attribution := cleanDiv (sumBy Record.attribution rs) (rs.length : ℚ)
    metrics := computeMetrics (sumBy Record.spend rs) (sumBy Record.installs rs)
      (sumBy Record.impressions rs) (sumBy Record.revenue rs) (sumBy Record.payers rs) }

/-- `aggregate_data`: group records by the value of the grouping-key
function `key` (one or several columns, modelled as one function into
a key type), producing one `Group` per distinct key value present in
the input. -/
def aggregateBy {K : Type} [DecidableEq K] (key : Record → K) (rs : List Record) :
    List (K × Group) :=
  (rs.map key).dedup.map fun k => (k, mkGroup (rs.filter fun r => decide (key r = k)))

/-! ### Budget model -/

/-- The `daily_budget` dictionary: `{"MaxiBingo": 4000, "default": 2000}`. -/
def daily_budget (s : String) : Option ℚ :=
  if s = "MaxiBingo" then some 4000
  else if s = "default" then some 2000
  else none

/-- Python's `str.strip()`: drop whitespace characters from both ends
of the string. -/
def pyStrip (s : String) : String :=
  String.mk (((s.data.dropWhile Char.isWhitespace).reverse.dropWhile
    Char.isWhitespace).reverse)

/-- `daily_budget.get(str(app_name).strip(), daily_budget["default"])`:
strip surrounding whitespace, then a case-sensitive dictionary lookup
falling back to the default cap `2000`. -/
def daily_cap (app : String) : ℚ := (daily_budget (pyStrip app)).getD 2000

/-- Dates are modelled as integer day numbers, so
`(pd.to_datetime(end) - pd.to_datetime(start)).days = e - s`.
`num_days` is `(end - start).days + 1`, exactly as on the
`Visual Budget Usage` path (no flooring). -/
def num_days (s e : ℤ) : ℤ := (e - s) + 1

/-- `total_budget = daily_cap * num_days`. -/
def total_budget (app : String) (s e : ℤ) : ℚ := daily_cap app * (num_days s e : ℚ)

/-- `pct_used = (spend / total_budget) * 100 if total_budget > 0 else 0`
(the guarded utilization at the progress-bar site). -/
def pct_used (spend totalBudget : ℚ) : ℚ :=
  if 0 < totalBudget then spend / totalBudget * 100 else 0

/-- The `% of Budget Used` table column:
`Spend ($) / Total Budget ($) * 100` with pandas float semantics and
no guard and no cleanup, so a zero denominator yields an infinity. -/
def pct_budget_used_col (spend totalBudget : ℚ) : PVal :=
  pvalMulPos (pdiv spend totalBudget) 100

/-- Day-level total budget: sum of `daily_cap` over the distinct app
names present in the filtered data
(`filtered_df["App Name"].unique().tolist()`). -/
def day_total_budget (rs : List Record) : ℚ :=
  ((rs.map Record.appName).dedup.map daily_cap).sum

/-! ### Filter engine -/

/-- Minimum of a list of day numbers (`0` on the empty list, where the
code falls back to defaults that are never applied to any row). -/
def listMin : List ℤ → ℤ
  | [] => 0
  | d :: ds => ds.foldl min d

/-- Maximum of a list of day numbers. -/
def listMax : List ℤ → ℤ
  | [] => 0
  | d :: ds => ds.foldl max d

/-- Earliest date in a record list (`filtered_df["Date"].min()`). -/
def minDate (rs : List Record) : ℤ := listMin (rs.map Record.date)

/-- Latest date in a record list (`filtered_df["Date"].max()`). -/
def maxDate (rs : List Record) : ℤ := listMax (rs.map Record.date)

/-- The sidebar filter pipeline: keep rows whose app name, campaign id
and creative id are in the selected sets, then rows whose date lies in
the inclusive selected range. -/
def filterRecords (rs : List Record) (apps campaigns creatives : List String)
    (s e : ℤ) : List Record :=
  (((rs.filter fun r => decide (r.appName ∈ apps)).filter
      fun r => decide (r.campaignId ∈ campaigns)).filter
      fun r => decide (r.creativeId ∈ creatives)).filter
      fun r => decide (s ≤ r.date ∧ r.date ≤ e)

/-- `filtered_df` after the app widget, with the default selection
(all observed app names). -/
def stage1 (rs : List Record) : List Record :=
  rs.filter fun r => decide (r.appName ∈ (rs.map Record.appName).dedup)

/-- `filtered_df` after the campaign widget, whose default options are
the campaign ids observed in the app-filtered data. -/
def stage2 (rs : List Record) : List Record :=
  (stage1 rs).filter fun r =>
    decide (r.campaignId ∈ ((stage1 rs).map Record.campaignId).dedup)

/-- `filtered_df` after the creative widget, whose default options are
the creative ids observed in the campaign-filtered data. -/
def stage3 (rs : List Record) : List Record :=
  (stage2 rs).filter fun r =>
    decide (r.creativeId ∈ ((stage2 rs).map Record.creativeId).dedup)

/-- The pipeline with every widget left at its default: each selected
set is the list of values observed at that stage, and the date range
is `[min, max]` of the data reaching the date widget. -/
def defaultFilter (rs : List Record) : List Record :=
  filterRecords rs ((rs.map Record.appName).dedup)
    (((stage1 rs).map Record.campaignId).dedup)
    (((stage2 rs).map Record.creativeId).dedup)
    (minDate (stage3 rs)) (maxDate (stage3 rs))

/-! ### Presentation formatter -/

/-- A displayed cell: a number, a string, or a missing value. -/
inductive Cell where
  | num (q : ℚ)
  | str (s : String)
  | na
deriving DecidableEq, Repr

/-- The three format kinds of `format_metrics`. -/
inductive FmtKind where
  | thousands
  | percent
  | decimal
deriving DecidableEq, Repr

/-- Round `q * scale` to the nearest integer, ties to the even
integer, matching Python's float formatting.  Computed on the
numerator and denominator: for `n = q.num * scale` and `d = q.den`,
the floor of `n / d` is corrected by comparing twice the remainder
with `d`. -/
def roundHalfEvenScaled (q : ℚ) (scale : ℤ) : ℤ :=
  let n := q.num * scale
  let d := (q.den : ℤ)
  let f := Int.fdiv n d
  let r2 := 2 * (n - f * d)
  if r2 < d then f
  else if d < r2 then f + 1
  else if f % 2 = 0 then f else f + 1

/-- Insert a separator after every third digit, working over the
reversed digit list. -/
def groupAux : List Char → List Char
  | [] => []
  | [a] => [a]
  | [a, b] => [a, b]
  | [a, b, c] => [a, b, c]
  | a :: b :: c :: d :: rest => a :: b :: c :: '.' :: groupAux (d :: rest)

/-- `f"{x:,.0f}".replace(",", ".")`: round to an integer and group the
digits in threes with `.` as separator. -/
def fmtThousands (q : ℚ) : String :=
  let n := roundHalfEvenScaled q 1
  (if n < 0 then "-" else "") ++
    String.mk ((groupAux (toString n.natAbs).data.reverse).reverse)

/-- Render a natural number below 100 with two digits. -/
def twoDigits (k : ℕ) : String :=
  if k < 10 then "0" ++ toString k else toString k

/-- Render an integer amount of hundredths as a fixed two-decimal
string. -/
def centsToString (n : ℤ) : String :=
  (if n < 0 then "-" else "") ++
    toString (n.natAbs / 100) ++ "." ++ twoDigits (n.natAbs % 100)

/-- `f"{x:.2f}"`: fixed two decimal places (round the value scaled by
`100` to an integer number of hundredths, then render). -/
def fmtFixed2 (q : ℚ) : String := centsToString (roundHalfEvenScaled q 100)

/-- `f"{x:.2%}"`: the value times `100`, with two fixed decimals and a
trailing percent sign. -/
def fmtPercent (q : ℚ) : String :=
  centsToString (roundHalfEvenScaled q 10000) ++ "%"

/-- Apply one format kind to one cell: numbers are rendered to display
strings, strings and missing values pass through unchanged. -/
def applyFmt : FmtKind → Cell → Cell
  | .thousands, .num q => .str (fmtThousands q)
  | .percent, .num q => .str (fmtPercent q)
  | .decimal, .num q => .str (fmtFixed2 q)
  | _, .str s => .str s
  | _, .na => .na

def thousand_cols : List String :=
  ["Spend ($)", "Installs", "Impressions", "Revenue D7", "Payers D7", "Total Budget ($)"]

def percent_cols : List String := ["Attribution %", "Payers %"]

def decimal_cols : List String := ["CPI", "IPM", "CPM", "ARPI", "ARPP"]

/-- `format_metrics`, cell-wise: dispatch on the column name's
membership in the three column lists; any other column is untouched. -/
def format_metrics_cell (col : String) (c : Cell) : Cell :=
  if col ∈ thousand_cols then applyFmt .thousands c
  else if col ∈ percent_cols then applyFmt .percent c
  else if col ∈ decimal_cols then applyFmt .decimal c
  else c

/-! ### Sample data used in concrete scenarios -/

/-- The record of the spec's aggregation scenario:
`{app:"A", spend:100, installs:10, impressions:5000, revenue:50, payers:2}`. -/
def sampleRecord : Record :=
  { appName := "A", campaignId := "c1", creativeId := "x1", date := 0,
    spend := 100, installs := 10, impressions := 5000, revenue := 50,
    payers := 2, attribution := 0 }

/-- The five summed base fields of a group, in the order spend,
installs, impressions, payers, revenue. -/
def baseOf (g : Group) : ℚ × ℚ × ℚ × ℚ × ℚ :=
  (g.spend, g.installs, g.impressions, g.payers, g.revenue)

/-- Turn an aggregated-by-app row back into a raw row, as re-feeding
the aggregated dataframe to `aggregate_data` does: the key value goes
back into the app-name column and the summed base fields keep their
columns. -/
def reconApp (k : String) (g : Group) : Record :=
  { appName := k, campaignId := "", creativeId := "", date := 0,
    spend := g.spend, installs := g.installs, impressions := g.impressions,
    revenue := g.revenue, payers := g.payers, attribution := g.attribution }

/-- A second record for app `"A"` on the same date with spend 200. -/
def sampleRecord2 : Record :=
  { appName := "A", campaignId := "c2", creativeId := "x2", date := 0,
    spend := 200, installs := 4, impressions := 1000, revenue := 20,
    payers := 1, attribution := 1 }

/-! ### Helper lemmas -/

theorem cleanDiv_eq (x y : ℚ) : cleanDiv x y = if y = 0 then 0 else x / y := by
  unfold cleanDiv pdiv
  by_cases hy : y = 0 <;> simp only [hy, if_true, if_false, reduceIte]
  · by_cases hx : 0 < x <;> by_cases hx' : x < 0 <;> simp [hx, hx', cleanup]
  · simp [hy, cleanup]

theorem cleanDiv_zero_right (x : ℚ) : cleanDiv x 0 = 0 := by
  simp [cleanDiv_eq]

theorem sum_map_ite_zero {K : Type} [DecidableEq K] (a : K) (c : ℚ) (ks : List K)
    (h : a ∉ ks) : (ks.map fun k => if a = k then c else 0).sum = 0 := by
  induction ks with
  | nil => simp
  | cons b t ih =>
    have hab : a ≠ b := fun hc => h (hc ▸ List.mem_cons_self b t)
    simp only [List.map_cons, List.sum_cons, if_neg hab,
      ih (fun hc => h (List.mem_cons_of_mem b hc))]
    simp

theorem sum_map_ite_single {K : Type} [DecidableEq K] (a : K) (c : ℚ) :
    ∀ ks : List K, ks.Nodup → a ∈ ks →
      (ks.map fun k => if a = k then c else 0).sum = c := by
  intro ks
  induction ks with
  | nil => intro _ h; cases h
  | cons b t ih =>
    intro hnd hmem
    rcases List.mem_cons.mp hmem with rfl | hmem'
    · have hnotin : a ∉ t := (List.nodup_cons.mp hnd).1
      simp [sum_map_ite_zero a c t hnotin]
    · have hab : a ≠ b := fun hc => (List.nodup_cons.mp hnd).1 (hc ▸ hmem')
      simp only [List.map_cons, List.sum_cons, if_neg hab,
        ih (List.nodup_cons.mp hnd).2 hmem']
      simp

/-- Summing a field bucket-by-bucket over a complete, duplicate-free
list of bucket keys gives the sum over the whole input. -/
theorem bucket_sum_aux {K : Type} [DecidableEq K] (key : Record → K) (f : Record → ℚ) :
    ∀ (rs : List Record) (ks : List K), ks.Nodup → (∀ r ∈ rs, key r ∈ ks) →
      (ks.map fun k => sumBy f (rs.filter fun r => decide (key r = k))).sum = sumBy f rs := by
  intro rs
  induction rs with
  | nil =>
    intro ks _ _
    simp [sumBy]
  | cons r rest ih =>
    intro ks hnd hcover
    have hstep : ∀ k : K,
        sumBy f ((r :: rest).filter fun x => decide (key x = k)) =
          (if key r = k then f r else 0) +
            sumBy f (rest.filter fun x => decide (key x = k)) := by
      intro k
      by_cases h : key r = k <;> simp [List.filter_cons, h, sumBy]
    calc (ks.map fun k => sumBy f ((r :: rest).filter fun x => decide (key x = k))).sum
        = (ks.map fun k => (if key r = k then f r else 0) +
            sumBy f (rest.filter fun x => decide (key x = k))).sum := by
          rw [List.map_congr_left fun k _ => hstep k]
      _ = (ks.map fun k => if key r = k then f r else 0).sum +
            (ks.map fun k => sumBy f (rest.filter fun x => decide (key x = k))).sum := by
          rw [List.sum_map_add]
      _ = f r + sumBy f rest := by
          rw [sum_map_ite_single (key r) (f r) ks hnd (hcover r (List.mem_cons_self r rest)),
            ih ks hnd (fun x hx => hcover x (List.mem_cons_of_mem r hx))]
      _ = sumBy f (r :: rest) := by simp [sumBy]

theorem bucket_sum {K : Type} [DecidableEq K] (key : Record → K) (f : Record → ℚ)
    (rs : List Record) :
    ((rs.map key).dedup.map fun k => sumBy f (rs.filter fun r => decide (key r = k))).sum =
      sumBy f rs :=
  bucket_sum_aux key f rs _ (List.nodup_dedup _)
    (fun _ hr => List.mem_dedup.mpr (List.mem_map_of_mem key hr))

/-- In a duplicate-free list, filtering for one contained key leaves
exactly that key. -/
theorem nodup_filter_eq_singleton {K : Type} [DecidableEq K] (k : K) :
    ∀ ks : List K, ks.Nodup → k ∈ ks → ks.filter (fun x => decide (x = k)) = [k] := by
  intro ks
  induction ks with
  | nil => intro _ h; cases h
  | cons a t ih =>
    intro hnd hmem
    rcases List.mem_cons.mp hmem with rfl | hmem'
    · have hnotin : k ∉ t := (List.nodup_cons.mp hnd).1
      have htail : t.filter (fun x => decide (x = k)) = [] := by
        apply List.filter_eq_nil_iff.mpr
        intro x hx
        simp only [decide_eq_true_eq]
        exact fun hc => hnotin (hc ▸ hx)
      simp [List.filter_cons, htail]
    · have hak : a ≠ k := fun hc => (List.nodup_cons.mp hnd).1 (hc ▸ hmem')
      simp [List.filter_cons, hak, ih (List.nodup_cons.mp hnd).2 hmem']

theorem foldl_min_le (ds : List ℤ) :
    ∀ (d x : ℤ), x ∈ d :: ds → ds.foldl min d ≤ x := by
  induction ds with
  | nil =>
    intro d x hx
    rcases List.mem_cons.mp hx with rfl | hx'
    · simp
    · cases hx'
  | cons e t ih =>
    intro d x hx
    simp only [List.foldl_cons]
    have hhead : t.foldl min (min d e) ≤ min d e :=
      ih (min d e) (min d e) (List.mem_cons_self _ _)
    rcases List.mem_cons.mp hx with rfl | hx'
    · exact le_trans hhead (min_le_left x e)
    · rcases List.mem_cons.mp hx' with rfl | hx''
      · exact le_trans hhead (min_le_right d x)
      · exact ih (min d e) x (List.mem_cons_of_mem _ hx'')

theorem le_foldl_max (ds : List ℤ) :
    ∀ (d x : ℤ), x ∈ d :: ds → x ≤ ds.foldl max d := by
  induction ds with
  | nil =>
    intro d x hx
    rcases List.mem_cons.mp hx with rfl | hx'
    · simp
    · cases hx'
  | cons e t ih =>
    intro d x hx
    simp only [List.foldl_cons]
    have hhead : max d e ≤ t.foldl max (max d e) :=
      ih (max d e) (max d e) (List.mem_cons_self _ _)
    rcases List.mem_cons.mp hx with rfl | hx'
    · exact le_trans (le_max_left x e) hhead
    · rcases List.mem_cons.mp hx' with rfl | hx''
      · exact le_trans (le_max_right d x) hhead
      · exact ih (max d e) x (List.mem_cons_of_mem _ hx'')

theorem listMin_le (l : List ℤ) (x : ℤ) (hx : x ∈ l) : listMin l ≤ x := by
  cases l with
  | nil => cases hx
  | cons d ds => exact foldl_min_le ds d x hx

theorem le_listMax (l : List ℤ) (x : ℤ) (hx : x ∈ l) : x ≤ listMax l := by
  cases l with
  | nil => cases hx
  | cons d ds => exact le_foldl_max ds d x hx

theorem minDate_le (rs : List Record) (r : Record) (hr : r ∈ rs) :
    minDate rs ≤ r.date :=
  listMin_le _ _ (List.mem_map_of_mem Record.date hr)

theorem le_maxDate (rs : List Record) (r : Record) (hr : r ∈ rs) :
    r.date ≤ maxDate rs :=
  le_listMax _ _ (List.mem_map_of_mem Record.date hr)

/-! ### Claims -/

/-- **C2** — Each derived ratio metric whose denominator is zero
evaluates to `0`: CPI, Payers % and ARPI when installs = 0, IPM and
CPM when impressions = 0, ROAS when spend = 0, ARPP when payers = 0.
The same calculator is used per row (`rowMetrics`) and per aggregated
group (`mkGroup`), and the cleanup maps every infinity and `NaN`
to `0`, so no infinity or undefined value survives into the result. -/
theorem c2_zero_denominator_metrics (s i im r p : ℚ) :
    (i = 0 → (computeMetrics s i im r p).cpi = 0 ∧
      (computeMetrics s i im r p).payersPct = 0 ∧
      (computeMetrics s i im r p).arpi = 0) ∧
    (im = 0 → (computeMetrics s i im r p).ipm = 0 ∧
      (computeMetrics s i im r p).cpm = 0) ∧
    (s = 0 → (computeMetrics s i im r p).roas = 0) ∧
    (p = 0 → (computeMetrics s i im r p).arpp = 0) ∧
    (∀ rec : Record, rowMetrics rec =
      computeMetrics rec.spend rec.installs rec.impressions rec.revenue rec.payers) ∧
    (∀ rows : List Record, (mkGroup rows).metrics =
      computeMetrics (mkGroup rows).spend (mkGroup rows).installs
        (mkGroup rows).impressions (mkGroup rows).revenue (mkGroup rows).payers) ∧
    cleanup PVal.posInf = 0 ∧ cleanup PVal.negInf = 0 ∧ cleanup PVal.nan = 0 := by
  refine ⟨fun hi => ?_, fun him => ?_, fun hs => ?_, fun hp => ?_,
    fun rec => rfl, fun rows => rfl, rfl, rfl, rfl⟩ <;>
    simp [computeMetrics, cleanDiv_eq, *]

/-- **C2 witness** — at spend = installs = impressions = payers = 0 and
revenue = 7, every metric with a zero denominator is `0`. -/
theorem c2_zero_denominator_metrics_witness :
    (computeMetrics 0 0 0 7 0).cpi = 0 ∧ (computeMetrics 0 0 0 7 0).ipm = 0 ∧
    (computeMetrics 0 0 0 7 0).roas = 0 ∧ (computeMetrics 0 0 0 7 0).arpp = 0 :=
  ⟨((c2_zero_denominator_metrics 0 0 0 7 0).1 rfl).1,
   ((c2_zero_denominator_metrics 0 0 0 7 0).2.1 rfl).1,
   (c2_zero_denominator_metrics 0 0 0 7 0).2.2.1 rfl,
   (c2_zero_denominator_metrics 0 0 0 7 0).2.2.2.1 rfl⟩

/-- **C3 counterexample** — the claim says utilization is `0` whenever
the total budget is `0` "at every site", but the `% of Budget Used`
table column divides without the guard: at spend 500 and total
budget 0 it produces `+inf`, while the guarded `pct_used` gives 0. -/
theorem c3_counterexample :
    pct_budget_used_col 500 0 = PVal.posInf ∧
    pct_used 500 0 = 0 ∧ PVal.posInf ≠ PVal.fin 0 := by
  refine ⟨by decide, ?_, by decide⟩
  simp [pct_used]

/-- **C3 amended** — the guarded `pct_used` (used for the progress
bars) is `spend / totalBudget * 100` for positive budgets and `0`
otherwise, matching the spec's two examples; the unguarded
`% of Budget Used` column agrees with it whenever the total budget is
positive (but not at zero, see the counterexample). -/
theorem c3_utilization (s tb : ℚ) :
    (0 < tb → pct_used s tb = s / tb * 100) ∧
    (tb = 0 → pct_used s tb = 0) ∧
    pct_used 0 1000 = 0 ∧
    pct_used 500 0 = 0 ∧
    (0 < tb → pct_budget_used_col s tb = PVal.fin (pct_used s tb)) := by
  refine ⟨fun h => ?_, fun h => ?_, ?_, ?_, fun h => ?_⟩
  · simp [pct_used, h]
  · simp [pct_used, h]
  · norm_num [pct_used]
  · norm_num [pct_used]
  · simp [pct_budget_used_col, pdiv, pvalMulPos, ne_of_gt h, pct_used, h]

/-- **C3 witness** — at spend 200 and total budget 100, the guarded
utilization is 200 and the table column computes the same value. -/
theorem c3_utilization_witness :
    pct_used 200 100 = 200 / 100 * 100 ∧
    pct_budget_used_col 200 100 = PVal.fin (pct_used 200 100) :=
  ⟨(c3_utilization 200 100).1 (by norm_num),
   (c3_utilization 200 100).2.2.2.2 (by norm_num)⟩

/-- **C4 counterexample** — the claim says a malformed range still
gives `numDays = 1`; in the code `num_days` has no floor: with the
end 5 days before the start it is `-4`, and the total budget for an
unmapped app is negative. -/
theorem c4_counterexample :
    num_days 5 0 = -4 ∧ num_days 5 0 ≠ 1 ∧ total_budget "A" 5 0 < 0 := by
  refine ⟨by decide, by decide, ?_⟩
  have h : daily_cap "A" = 2000 := by decide
  rw [total_budget, h]
  norm_num [num_days]

/-- **C4 amended** — `total_budget` is the daily cap times
`num_days = (end - start) + 1` with no floor; the count is at least 1
only when the range is well-formed (start ≤ end). -/
theorem c4_total_budget (app : String) (s e : ℤ) :
    num_days s e = e - s + 1 ∧
    total_budget app s e = daily_cap app * (num_days s e : ℚ) ∧
    (s ≤ e → 1 ≤ num_days s e) := by
  refine ⟨rfl, rfl, fun h => ?_⟩
  simp only [num_days]
  omega

/-- **C4 witness** — a well-formed range (days 3 through 7) has a
day count of at least 1. -/
theorem c4_total_budget_witness : (3 : ℤ) ≤ 7 ∧ 1 ≤ num_days 3 7 :=
  ⟨by decide, (c4_total_budget "A" 3 7).2.2 (by decide)⟩

/-- **C8** — the formatter renders percent columns as the value times
100 with two decimals and a trailing `%`, decimal columns with two
fixed decimals, thousands columns as a grouped integer with `.` as
separator, and passes strings and missing values through unchanged;
`Payers %` dispatches to the percent kind. -/
theorem c8_format_metrics :
    applyFmt .percent (.num 0.0732) = .str "7.32%" ∧
    applyFmt .decimal (.num 3.456) = .str "3.46" ∧
    applyFmt .thousands (.num 12345) = .str "12.345" ∧
    (∀ (k : FmtKind) (s : String), applyFmt k (.str s) = .str s) ∧
    (∀ k : FmtKind, applyFmt k .na = .na) ∧
    format_metrics_cell "Payers %" (.num 0.0732) = applyFmt .percent (.num 0.0732) ∧
    format_metrics_cell "CPI" (.num 3.456) = applyFmt .decimal (.num 3.456) ∧
    format_metrics_cell "Installs" (.num 12345) = applyFmt .thousands (.num 12345) := by
  have h1 : (0.0732 : ℚ) = mkRat 732 10000 := by rw [Rat.mkRat_eq_div]; norm_num
  have h2 : (3.456 : ℚ) = mkRat 3456 1000 := by rw [Rat.mkRat_eq_div]; norm_num
  refine ⟨?_, ?_, by decide, fun k s => by cases k <;> rfl, fun k => by cases k <;> rfl,
    by rw [format_metrics_cell]; rfl, by rw [format_metrics_cell]; rfl,
    by rw [format_metrics_cell]; rfl⟩
  · rw [h1]; decide
  · rw [h2]; decide

/-- **C9** — budget lookup strips surrounding whitespace, then matches
case-sensitively: `MaxiBingo` (with or without padding) maps to 4000,
a lowercased or unknown name falls back to the default 2000, and any
name absent from the mapping after stripping gets the default. -/
theorem c9_daily_budget_lookup :
    daily_cap "MaxiBingo" = 4000 ∧
    daily_cap "UnknownApp" = 2000 ∧
    daily_cap "  MaxiBingo " = 4000 ∧
    daily_cap "maxibingo" = 2000 ∧
    (∀ app : String, daily_budget (pyStrip app) = none → daily_cap app = 2000) := by
  refine ⟨by decide, by decide, by decide, by decide, fun app h => ?_⟩
  simp [daily_cap, h]

/-- **C9 witness** — `SomeOtherApp` is absent from the mapping and
gets the default cap. -/
theorem c9_daily_budget_lookup_witness :
    daily_budget (pyStrip "SomeOtherApp") = none ∧ daily_cap "SomeOtherApp" = 2000 :=
  ⟨by decide, c9_daily_budget_lookup.2.2.2.2 "SomeOtherApp" (by decide)⟩

/-- **C10** — aggregation partitions the input without loss or
duplication: for each summed base field, the sum over all output
groups equals the sum over all input records, for any grouping key. -/
theorem c10_sum_preservation {K : Type} [DecidableEq K] (key : Record → K)
    (rs : List Record) :
    ((aggregateBy key rs).map fun kg => kg.2.spend).sum = sumBy Record.spend rs ∧
    ((aggregateBy key rs).map fun kg => kg.2.installs).sum = sumBy Record.installs rs ∧
    ((aggregateBy key rs).map fun kg => kg.2.impressions).sum = sumBy Record.impressions rs ∧
    ((aggregateBy key rs).map fun kg => kg.2.payers).sum = sumBy Record.payers rs ∧
    ((aggregateBy key rs).map fun kg => kg.2.revenue).sum = sumBy Record.revenue rs := by
  refine ⟨?_, ?_, ?_, ?_, ?_⟩ <;>
    · simp only [aggregateBy, List.map_map]
      first
      | exact bucket_sum key Record.spend rs
      | exact bucket_sum key Record.installs rs
      | exact bucket_sum key Record.impressions rs
      | exact bucket_sum key Record.payers rs
      | exact bucket_sum key Record.revenue rs

/-- **C5** — the day-level total budget is the sum of `daily_cap` over
exactly the distinct app names present in the filtered data: it is
that sum by definition, and it depends only on the *set* of app names
observed (hence not on the date range, which it never reads, and not
on any global list of apps). -/
theorem c5_day_total_budget (rs rs' : List Record)
    (h : ∀ a : String, a ∈ rs.map Record.appName ↔ a ∈ rs'.map Record.appName) :
    day_total_budget rs = ((rs.map Record.appName).dedup.map daily_cap).sum ∧
    day_total_budget rs = day_total_budget rs' := by
  refine ⟨rfl, ?_⟩
  have hperm : List.Perm (rs.map Record.appName).dedup (rs'.map Record.appName).dedup :=
    (List.perm_ext_iff_of_nodup (List.nodup_dedup _) (List.nodup_dedup _)).mpr
      (fun a => by rw [List.mem_dedup, List.mem_dedup]; exact h a)
  exact (hperm.map daily_cap).sum_eq

/-- **C5 witness** — a one-record list and a two-record list with the
same app give the same day-level budget. -/
theorem c5_day_total_budget_witness :
    day_total_budget [sampleRecord] = day_total_budget [sampleRecord, sampleRecord] :=
  (c5_day_total_budget [sampleRecord] [sampleRecord, sampleRecord]
    (fun a => by simp)).2

/-- **C7** — applying the filter pipeline with every selection left at
its default (all observed apps, campaigns and creatives, and the
`[min, max]` date range of the data) returns the record set
unchanged. -/
theorem c7_default_filter_identity (rs : List Record) : defaultFilter rs = rs := by
  have h1 : stage1 rs = rs := by
    apply List.filter_eq_self.mpr
    intro r hr
    simp only [decide_eq_true_eq, List.mem_dedup]
    exact List.mem_map_of_mem Record.appName hr
  have h2 : stage2 rs = rs := by
    unfold stage2
    rw [h1]
    apply List.filter_eq_self.mpr
    intro r hr
    simp only [decide_eq_true_eq, List.mem_dedup]
    exact List.mem_map_of_mem Record.campaignId hr
  have h3 : stage3 rs = rs := by
    unfold stage3
    rw [h2]
    apply List.filter_eq_self.mpr
    intro r hr
    simp only [decide_eq_true_eq, List.mem_dedup]
    exact List.mem_map_of_mem Record.creativeId hr
  show (stage3 rs).filter
      (fun r => decide (minDate (stage3 rs) ≤ r.date ∧ r.date ≤ maxDate (stage3 rs))) = rs
  rw [h3]
  apply List.filter_eq_self.mpr
  intro r hr
  simp only [decide_eq_true_eq]
  exact ⟨minDate_le rs r hr, le_maxDate rs r hr⟩

/-- **C1** — aggregation produces exactly one group per distinct key
value present in the input (duplicate-free keys whose set is exactly
the observed key values; empty input gives an empty result), each
group carries the sums of the five base fields over its rows, the
mean attribution, and the seven metrics recomputed from the summed
values; and the spec's single-record scenario yields CPI 10, IPM 2,
CPM 20, ROAS 0.5, Payers % 0.2, ARPI 5, ARPP 25. -/
theorem c1_aggregate_groups {K : Type} [DecidableEq K] (key : Record → K)
    (rs : List Record) :
    ((aggregateBy key rs).map Prod.fst).Nodup ∧
    (∀ k : K, (∃ g, (k, g) ∈ aggregateBy key rs) ↔ k ∈ rs.map key) ∧
    aggregateBy key ([] : List Record) = [] ∧
    (∀ (k : K) (g : Group), (k, g) ∈ aggregateBy key rs →
      g.spend = sumBy Record.spend (rs.filter fun r => decide (key r = k)) ∧
      g.installs = sumBy Record.installs (rs.filter fun r => decide (key r = k)) ∧
      g.impressions = sumBy Record.impressions (rs.filter fun r => decide (key r = k)) ∧
      g.payers = sumBy Record.payers (rs.filter fun r => decide (key r = k)) ∧
      g.revenue = sumBy Record.revenue (rs.filter fun r => decide (key r = k)) ∧
      g.attribution =
        cleanDiv (sumBy Record.attribution (rs.filter fun r => decide (key r = k)))
          (((rs.filter fun r => decide (key r = k)).length : ℚ)) ∧
      g.metrics = computeMetrics g.spend g.installs g.impressions g.revenue g.payers) ∧
    aggregateBy Record.appName [sampleRecord] =
      [("A", { spend := 100, installs := 10, impressions := 5000, payers := 2,
               revenue := 50, attribution := 0,
               metrics := { cpi := 10, ipm := 2, cpm := 20, roas := 1/2,
                            payersPct := 1/5, arpi := 5, arpp := 25 } })] := by
  refine ⟨?_, ?_, rfl, ?_, ?_⟩
  · have hkeys : ((aggregateBy key rs).map Prod.fst) = (rs.map key).dedup := by
      simp only [aggregateBy, List.map_map]
      have hc : ∀ k ∈ (rs.map key).dedup,
          (Prod.fst ∘ fun k' =>
            (k', mkGroup (rs.filter fun r => decide (key r = k')))) k = id k :=
        fun k _ => rfl
      rw [List.map_congr_left hc, List.map_id]
    rw [hkeys]
    exact List.nodup_dedup _
  · intro k
    constructor
    · rintro ⟨g, hg⟩
      simp only [aggregateBy, List.mem_map] at hg
      obtain ⟨a, ha, heq⟩ := hg
      have hak : a = k := congrArg Prod.fst heq
      exact List.mem_dedup.mp (hak ▸ ha)
    · intro hk
      refine ⟨mkGroup (rs.filter fun r => decide (key r = k)), ?_⟩
      simp only [aggregateBy, List.mem_map]
      exact ⟨k, List.mem_dedup.mpr hk, rfl⟩
  · intro k g hg
    simp only [aggregateBy, List.mem_map] at hg
    obtain ⟨a, ha, heq⟩ := hg
    obtain ⟨h1, h2⟩ := Prod.mk.injEq .. ▸ heq
    subst h1
    subst h2
    exact ⟨rfl, rfl, rfl, rfl, rfl, rfl, rfl⟩
  · have hagg : aggregateBy Record.appName [sampleRecord] =
        [("A", mkGroup [sampleRecord])] := rfl
    have hg : mkGroup [sampleRecord] =
        { spend := 100, installs := 10, impressions := 5000, payers := 2,
          revenue := 50, attribution := 0,
          metrics := { cpi := 10, ipm := 2, cpm := 20, roas := 1/2,
                       payersPct := 1/5, arpi := 5, arpp := 25 } } := by
      simp [mkGroup, sumBy, computeMetrics, cleanDiv_eq, sampleRecord,
        Group.mk.injEq, Metrics.mk.injEq]
      norm_num
    rw [hagg, hg]

/-- **C1 witness** — for the scenario record, the group of key `"A"`
is in the output and its spend is the sum over its rows. -/
theorem c1_aggregate_groups_witness :
    ("A", mkGroup [sampleRecord]) ∈ aggregateBy Record.appName [sampleRecord] ∧
    (mkGroup [sampleRecord]).spend =
      sumBy Record.spend ([sampleRecord].filter fun r => decide (Record.appName r = "A")) := by
  have hmem : ("A", mkGroup [sampleRecord]) ∈ aggregateBy Record.appName [sampleRecord] :=
    List.mem_singleton.mpr rfl
  exact ⟨hmem, ((c1_aggregate_groups Record.appName [sampleRecord]).2.2.2.1 "A"
    (mkGroup [sampleRecord]) hmem).1⟩

/-- **C6** — re-aggregating an already-aggregated-by-`key` result
(turned back into rows by any reconstruction that preserves the key
and the five base fields) yields groups with the same key and the
same summed base fields as the first aggregation. -/
theorem c6_reaggregation_idempotent {K : Type} [DecidableEq K] (key : Record → K)
    (recon : K → Group → Record)
    (hkey : ∀ k g, key (recon k g) = k)
    (hspend : ∀ k g, (recon k g).spend = g.spend)
    (hinstalls : ∀ k g, (recon k g).installs = g.installs)
    (himpressions : ∀ k g, (recon k g).impressions = g.impressions)
    (hpayers : ∀ k g, (recon k g).payers = g.payers)
    (hrevenue : ∀ k g, (recon k g).revenue = g.revenue)
    (rs : List Record) :
    (aggregateBy key ((aggregateBy key rs).map fun kg => recon kg.1 kg.2)).map
        (fun kg => (kg.1, baseOf kg.2)) =
      (aggregateBy key rs).map (fun kg => (kg.1, baseOf kg.2)) := by
  set ks := (rs.map key).dedup with hks
  set G : K → Group := fun k => mkGroup (rs.filter fun r => decide (key r = k)) with hG
  have hksnodup : ks.Nodup := List.nodup_dedup _
  have hfirst : aggregateBy key rs = ks.map fun k => (k, G k) := rfl
  set rows := (aggregateBy key rs).map (fun kg => recon kg.1 kg.2) with hrowsdef
  have hrows : rows = ks.map fun k => recon k (G k) := by
    rw [hrowsdef, hfirst, List.map_map]
    rfl
  have hrowskey : rows.map key = ks := by
    rw [hrows, List.map_map]
    have hc : ∀ k ∈ ks, (key ∘ fun k' => recon k' (G k')) k = id k :=
      fun k _ => hkey k (G k)
    rw [List.map_congr_left hc, List.map_id]
  have hdedup : (rows.map key).dedup = ks := by
    rw [hrowskey]
    exact List.dedup_eq_self.mpr hksnodup
  have hsecond : aggregateBy key rows =
      ks.map fun k => (k, mkGroup (rows.filter fun r => decide (key r = k))) := by
    unfold aggregateBy
    rw [hdedup]
  have hfilter : ∀ k ∈ ks, rows.filter (fun r => decide (key r = k)) = [recon k (G k)] := by
    intro k hk
    rw [hrows, List.filter_map]
    have hcongr : ∀ x ∈ ks,
        ((fun r => decide (key r = k)) ∘ fun k' => recon k' (G k')) x =
          (fun x => decide (x = k)) x := by
      intro x _
      exact decide_eq_decide.mpr (by rw [hkey x (G x)])
    rw [List.filter_congr hcongr, nodup_filter_eq_singleton k ks hksnodup hk]
    rfl
  have hbase : ∀ k, baseOf (mkGroup [recon k (G k)]) = baseOf (G k) := by
    intro k
    simp [baseOf, mkGroup, sumBy, hspend, hinstalls, himpressions, hpayers, hrevenue]
  calc (aggregateBy key rows).map (fun kg => (kg.1, baseOf kg.2))
      = ks.map fun k => (k, baseOf (mkGroup (rows.filter fun r => decide (key r = k)))) := by
        rw [hsecond, List.map_map]
        rfl
    _ = ks.map fun k => (k, baseOf (G k)) := by
        apply List.map_congr_left
        intro k hk
        rw [hfilter k hk, hbase k]
    _ = (aggregateBy key rs).map (fun kg => (kg.1, baseOf kg.2)) := by
        rw [hfirst, List.map_map]
        rfl

/-- **C6 witness** — instantiated with the app-name key, the concrete
reconstruction `reconApp` and a two-record input. -/
theorem c6_reaggregation_idempotent_witness :
    (aggregateBy Record.appName
        ((aggregateBy Record.appName [sampleRecord, sampleRecord2]).map
          fun kg => reconApp kg.1 kg.2)).map (fun kg => (kg.1, baseOf kg.2)) =
      (aggregateBy Record.appName [sampleRecord, sampleRecord2]).map
        (fun kg => (kg.1, baseOf kg.2)) :=
  c6_reaggregation_idempotent Record.appName reconApp
    (fun _ _ => rfl) (fun _ _ => rfl) (fun _ _ => rfl) (fun _ _ => rfl)
    (fun _ _ => rfl) (fun _ _ => rfl) [sampleRecord, sampleRecord2]

end Dashboard
